import Mathlib

/-!
Verification of the Instagram/Airtable content-automation pipeline.

The definitions below are a shallow embedding of the Python sources
(`airtable_content_automation.py`, `instagram_poster.py`, `config.py`).
Python strings are modelled as Lean `String`/`List Char`; external HTTP
services (the language-model API, the Instagram Graph API, the Airtable
store) are modelled as explicit oracle parameters so that every control
path of the Python code is represented.  Machine behaviour that the code
never exercises (Unicode digit classes, byte encodings) is modelled over
the ASCII fragment the program manipulates.
-/

namespace InstaAuto

/-! ## Python string primitives (shallow embedding on `List Char`) -/

/-- Python `str.strip()` with no argument: remove leading and trailing
whitespace.  Implemented as: drop leading whitespace, then drop leading
whitespace of the reversal (i.e. trailing whitespace), then reverse back. -/
def pyStrip (s : List Char) : List Char :=
  ((s.dropWhile Char.isWhitespace).reverse.dropWhile Char.isWhitespace).reverse

/-- Python `s.replace(old, new)` for a single-character `old` and a
single-character `new` (the code only uses `replace("\n", " ")` in this
shape): every occurrence of `old` becomes `new`. -/
def pyReplaceChar (old new : Char) (s : List Char) : List Char :=
  s.map (fun c => if c = old then new else c)

/-- Python `s.replace(old, "")` for a single-character `old` (the code only
uses `replace('"', '')` in this shape): every occurrence of `old` is
removed. -/
def pyRemoveChar (old : Char) (s : List Char) : List Char :=
  s.filter (fun c => !(c = old : Bool))

/-- Helper for `pyWords`: `acc` holds the (reversed) characters of the word
currently being read. -/
def pyWordsAux (acc : List Char) : List Char → List (List Char)
  | [] => if acc.isEmpty then [] else [acc.reverse]
  | c :: cs =>
    if c.isWhitespace then
      if acc.isEmpty then pyWordsAux [] cs else acc.reverse :: pyWordsAux [] cs
    else
      pyWordsAux (c :: acc) cs

/-- Python `str.split()` with no argument: split on runs of whitespace,
dropping empty tokens (so leading/trailing whitespace contributes
nothing). -/
def pyWords (s : List Char) : List (List Char) :=
  pyWordsAux [] s

/-- Python `s.split(sep, 1)` when `sep` occurs in `s`: `some (pre, post)`
where `pre` is the text before the first occurrence of `sep` and `post`
the text after it; `none` when `sep` does not occur (`sep in s` is false). -/
def splitFirst (sep : List Char) : List Char → Option (List Char × List Char)
  | [] => if List.isPrefixOf sep [] then some ([], []) else none
  | c :: cs =>
    if List.isPrefixOf sep (c :: cs) then some ([], (c :: cs).drop sep.length)
    else
      match splitFirst sep cs with
      | some (pre, post) => some (c :: pre, post)
      | none => none

/-- Python `" ".join(tokens)`. -/
def joinSpace (tokens : List (List Char)) : List Char :=
  List.intercalate [' '] tokens

/-- Python `tag.startswith("#")`. -/
def startsHash : List Char → Bool
  | '#' :: _ => true
  | _ => false

/-- Python `str.isdigit()` over the ASCII fragment: false on the empty
string, true iff every character is a decimal digit. -/
def pyIsDigit (s : String) : Bool :=
  !s.data.isEmpty && s.data.all Char.isDigit

/-- Python `str.strip()` at the `String` level. -/
def pyStripS (s : String) : String :=
  (pyStrip s.data).asString

/-! ## `sanitize_filename` (airtable_content_automation.py lines 223-227) -/

/-- The character class of `re.sub(r'[<>:"/\\|?*]', '', filename)`. -/
def badChar (c : Char) : Bool :=
  c = '<' || c = '>' || c = ':' || c = '\"' || c = '/' || c = '\\' ||
  c = '|' || c = '?' || c = '*'

/-- `filename.replace(' ', '_')` acts characterwise. -/
def spaceToUnder (c : Char) : Char :=
  if c = ' ' then '_' else c

/-- `sanitize_filename`: remove the invalid characters, replace spaces with
underscores, truncate to 50 characters (`filename[:50]`). -/
def sanitize_filename (filename : String) : String :=
  (((filename.data.filter (fun c => !(badChar c))).map spaceToUnder).take 50).asString

/-! ### Lemmas about `sanitize_filename` -/

theorem data_asString (l : List Char) : (List.asString l).data = l := rfl

theorem mem_sanitize_filename {c : Char} {s : String}
    (h : c ∈ (sanitize_filename s).data) :
    ∃ c₀, c₀ ∈ s.data ∧ badChar c₀ = false ∧ c = spaceToUnder c₀ := by
  unfold sanitize_filename at h
  rw [data_asString] at h
  have h' := List.take_subset _ _ h
  rcases List.mem_map.mp h' with ⟨c₀, hc₀, rfl⟩
  rcases List.mem_filter.mp hc₀ with ⟨hmem, hb⟩
  exact ⟨c₀, hmem, by simpa using hb, rfl⟩

theorem spaceToUnder_not_space (c : Char) : spaceToUnder c ≠ ' ' := by
  unfold spaceToUnder
  by_cases h : c = ' ' <;> simp [h]

theorem spaceToUnder_not_bad {c : Char} (h : badChar c = false) :
    badChar (spaceToUnder c) = false := by
  unfold spaceToUnder
  by_cases hc : c = ' ' <;> simp [hc, h]
  rfl

theorem map_id_of {α : Type} (f : α → α) :
    ∀ l : List α, (∀ x ∈ l, f x = x) → l.map f = l := by
  intro l
  induction l with
  | nil => intro _; rfl
  | cons a t ih =>
    intro h
    simp only [List.map_cons]
    rw [h a (List.mem_cons_self a t), ih (fun x hx => h x (List.mem_cons_of_mem a hx))]

theorem filter_eq_self_of {α : Type} (p : α → Bool) :
    ∀ l : List α, (∀ x ∈ l, p x = true) → l.filter p = l := by
  intro l
  induction l with
  | nil => intro _; rfl
  | cons a t ih =>
    intro h
    rw [List.filter_cons, h a (List.mem_cons_self a t),
      ih (fun x hx => h x (List.mem_cons_of_mem a hx))]
    simp

theorem sanitize_filename_length (s : String) : (sanitize_filename s).length ≤ 50 := by
  unfold sanitize_filename
  show (List.asString _).data.length ≤ 50
  rw [data_asString, List.length_take]
  exact Nat.min_le_left _ _

theorem sanitize_filename_fixed (t : String)
    (h1 : ∀ c ∈ t.data, badChar c = false ∧ c ≠ ' ')
    (h2 : t.data.length ≤ 50) :
    sanitize_filename t = t := by
  unfold sanitize_filename
  rw [filter_eq_self_of _ _ (fun c hc => by simp [(h1 c hc).1]),
    map_id_of _ _ (fun c hc => by
      unfold spaceToUnder
      rw [if_neg (h1 c hc).2]),
    List.take_of_length_le h2]
  cases t
  rfl

/-- C8: `sanitize_filename` is idempotent, its output contains none of the
characters `<>:"/\|?*`, contains no space, and has length at most 50. -/
theorem sanitize_filename_spec (s : String) :
    sanitize_filename (sanitize_filename s) = sanitize_filename s ∧
    (∀ c, c ∈ (sanitize_filename s).data → badChar c = false ∧ c ≠ ' ') ∧
    (sanitize_filename s).length ≤ 50 := by
  have hmem : ∀ c, c ∈ (sanitize_filename s).data → badChar c = false ∧ c ≠ ' ' := by
    intro c hc
    rcases mem_sanitize_filename hc with ⟨c₀, _, hb, rfl⟩
    exact ⟨spaceToUnder_not_bad hb, spaceToUnder_not_space c₀⟩
  exact ⟨sanitize_filename_fixed _ hmem (sanitize_filename_length s),
    hmem, sanitize_filename_length s⟩

/-- C8 witness at a concrete input. -/
theorem sanitize_filename_spec_witness :
    sanitize_filename (sanitize_filename "a b:c*d?e") = sanitize_filename "a b:c*d?e" ∧
    (sanitize_filename "a b:c*d?e").length ≤ 50 :=
  ⟨(sanitize_filename_spec "a b:c*d?e").1, (sanitize_filename_spec "a b:c*d?e").2.2⟩

/-! ## Caption splitting (`CaptionGenerator.generate_caption`, lines 254-261) -/

/-- The delimiter `"Hashtags:"` that `generate_caption` splits on. -/
def hashtagsMarker : List Char :=
  "Hashtags:".data

/-- `caption.strip().replace("\n", " ").replace('"', '')` (line 256). -/
def cleanCaption (s : List Char) : List Char :=
  pyRemoveChar '\"' (pyReplaceChar '\n' ' ' (pyStrip s))

/-- `" ".join([tag.strip() for tag in hashtags_str.strip().split() if
tag.startswith("#")])` (lines 257-258). -/
def hashtagsOf (seg : List Char) : List Char :=
  joinSpace (((pyWords (pyStrip seg)).filter startsHash).map pyStrip)

/-- The pure content-splitting core of `generate_caption` (lines 254-261):
if `"Hashtags:"` occurs in the response content, split on its first
occurrence into caption text and hashtag segment; otherwise the whole
content is the caption and the hashtags string is empty. -/
def parseContent (content : List Char) : List Char × List Char :=
  match splitFirst hashtagsMarker content with
  | some (pre, post) => (cleanCaption pre, hashtagsOf post)
  | none => (cleanCaption content, [])

/-- Modelled from the spec sentence for C2 only (to be compared with the
source-derived `hashtagsOf`): the whitespace-delimited tokens of the
segment which start with `#`, joined by single spaces, in order. -/
def specHashtags (seg : List Char) : List Char :=
  joinSpace ((pyWords seg).filter startsHash)

/-! ### Lemmas about `pyWords` and `pyStrip` -/

theorem pyWordsAux_noWs :
    ∀ (s acc : List Char), (∀ c ∈ acc, c.isWhitespace = false) →
      ∀ t ∈ pyWordsAux acc s, ∀ c ∈ t, c.isWhitespace = false := by
  intro s
  induction s with
  | nil =>
    intro acc hacc t ht c hc
    unfold pyWordsAux at ht
    by_cases ha : acc.isEmpty <;> simp [ha] at ht
    subst ht
    exact hacc c (List.mem_reverse.mp hc)
  | cons a as ih =>
    intro acc hacc t ht c hc
    unfold pyWordsAux at ht
    by_cases hws : a.isWhitespace
    · by_cases ha : acc.isEmpty <;> simp [hws, ha] at ht
      · exact ih [] (by simp) t ht c hc
      · rcases ht with ht | ht
        · subst ht
          exact hacc c (List.mem_reverse.mp hc)
        · exact ih [] (by simp) t ht c hc
    · simp [hws] at ht
      refine ih (a :: acc) ?_ t ht c hc
      intro x hx
      rcases List.mem_cons.mp hx with rfl | hx
      · simpa using hws
      · exact hacc x hx

theorem pyWordsAux_allWs :
    ∀ (s : List Char), (∀ c ∈ s, c.isWhitespace = true) →
      ∀ acc, pyWordsAux acc s = if acc.isEmpty then [] else [acc.reverse] := by
  intro s
  induction s with
  | nil => intro _ acc; rfl
  | cons a as ih =>
    intro h acc
    have hws : a.isWhitespace = true := h a (List.mem_cons_self _ _)
    have ih' := ih (fun x hx => h x (List.mem_cons_of_mem _ hx))
    unfold pyWordsAux
    by_cases ha : acc.isEmpty <;> simp [hws, ha, ih' []]

theorem pyWordsAux_append_ws {t : List Char} (hws : ∀ c ∈ t, c.isWhitespace = true) :
    ∀ (s acc : List Char), pyWordsAux acc (s ++ t) = pyWordsAux acc s := by
  intro s
  induction s with
  | nil =>
    intro acc
    rw [List.nil_append, pyWordsAux_allWs t hws acc]
    rfl
  | cons a as ih =>
    intro acc
    rw [List.cons_append]
    unfold pyWordsAux
    by_cases hwa : a.isWhitespace <;> by_cases ha : acc.isEmpty <;>
      simp [hwa, ha, ih]

theorem pyWords_dropWhile (s : List Char) :
    pyWords (s.dropWhile Char.isWhitespace) = pyWords s := by
  induction s with
  | nil => rfl
  | cons a as ih =>
    by_cases hwa : a.isWhitespace
    · rw [List.dropWhile_cons_of_pos (by simpa using hwa)]
      rw [ih]
      show pyWords as = pyWordsAux [] (a :: as)
      unfold pyWordsAux
      simp [hwa]
      rfl
    · rw [List.dropWhile_cons_of_neg (by simpa using hwa)]

theorem pyWords_pyStrip (s : List Char) : pyWords (pyStrip s) = pyWords s := by
  unfold pyStrip
  set u := s.dropWhile Char.isWhitespace with hu
  have hdecomp : u = (u.reverse.dropWhile Char.isWhitespace).reverse ++
      (u.reverse.takeWhile Char.isWhitespace).reverse := by
    conv_lhs => rw [← List.reverse_reverse u,
      ← List.takeWhile_append_dropWhile (p := Char.isWhitespace) (l := u.reverse)]
    rw [List.reverse_append]
  have hws : ∀ c ∈ (u.reverse.takeWhile Char.isWhitespace).reverse,
      c.isWhitespace = true := by
    intro c hc
    simpa using List.mem_takeWhile_imp (List.mem_reverse.mp hc)
  calc pyWords (u.reverse.dropWhile Char.isWhitespace).reverse
      = pyWordsAux [] ((u.reverse.dropWhile Char.isWhitespace).reverse ++
          (u.reverse.takeWhile Char.isWhitespace).reverse) :=
        (pyWordsAux_append_ws hws _ []).symm
    _ = pyWords u := by rw [← hdecomp]; rfl
    _ = pyWords s := by rw [hu, pyWords_dropWhile]

theorem dropWhile_of_noWs {l : List Char}
    (h : ∀ c ∈ l, c.isWhitespace = false) :
    l.dropWhile Char.isWhitespace = l := by
  cases l with
  | nil => rfl
  | cons a as =>
    exact List.dropWhile_cons_of_neg (by simp [h a (List.mem_cons_self _ _)])

theorem pyStrip_of_noWs {l : List Char}
    (h : ∀ c ∈ l, c.isWhitespace = false) :
    pyStrip l = l := by
  unfold pyStrip
  rw [dropWhile_of_noWs h,
    dropWhile_of_noWs (fun c hc => h c (List.mem_reverse.mp hc)),
    List.reverse_reverse]

/-- C2: when the response content contains `"Hashtags:"`, the caption
returned by `generate_caption` is computed from the text before the first
occurrence only (so it excludes the hashtag segment), and the hashtags
string is exactly the whitespace-delimited tokens of the segment that
start with `#`, space-joined in their original order. -/
theorem generate_caption_split (content pre post : List Char)
    (h : splitFirst hashtagsMarker content = some (pre, post)) :
    parseContent content = (cleanCaption pre, specHashtags post) := by
  unfold parseContent
  rw [h]
  have htok : ∀ t ∈ (pyWords post).filter startsHash, pyStrip t = t := by
    intro t ht
    have ht' : t ∈ pyWords post := List.mem_of_mem_filter ht
    exact pyStrip_of_noWs (pyWordsAux_noWs post [] (by simp) t ht')
  show (cleanCaption pre, hashtagsOf post) = _
  unfold hashtagsOf specHashtags
  rw [pyWords_pyStrip, map_id_of _ _ htok]

/-- C2 witness at a concrete response content. -/
theorem generate_caption_split_witness :
    splitFirst hashtagsMarker "Great view. Hashtags: #sun and #sea".data =
      some ("Great view. ".data, " #sun and #sea".data) ∧
    parseContent "Great view. Hashtags: #sun and #sea".data =
      (cleanCaption "Great view. ".data, specHashtags " #sun and #sea".data) :=
  ⟨by decide, generate_caption_split _ _ _ (by decide)⟩

/-! ## Airtable data model

`config.py` status constants (lines 26-29) and the Posts-table record
shape.  An Airtable record's field is absent when empty; `none` models a
missing/empty field and Airtable formula comparisons read a missing field
as `''` (modelled by `fieldStr`). -/

def STATUS_PENDING : String := "Pending"

def STATUS_READY : String := "Ready"

def STATUS_COMPLETED : String := "Completed"

def STATUS_FAILED : String := "Failed"

structure Fields where
  prompt : Option String
  caption : Option String
  imageUrl : Option String
  published : Option String
  mediaId : Option String
  publishDate : Option String
  status : Option String
deriving DecidableEq, Repr

structure AirRecord where
  id : String
  fields : Fields
deriving DecidableEq, Repr

/-- How an Airtable formula reads a field: a missing field compares as the
empty string. -/
def fieldStr (v : Option String) : String :=
  v.getD ""

/-- The `fields` dict passed to an Airtable update: only the listed keys
are written. -/
structure Patch where
  caption : Option String
  imageUrl : Option String
  published : Option String
  mediaId : Option String
  publishDate : Option String
  status : Option String
deriving DecidableEq, Repr

def patchField (pv old : Option String) : Option String :=
  match pv with
  | some v => some v
  | none => old

/-- Applying an update dict to a record's fields: listed keys are
overwritten, the rest keep their value.  The prompt field is never
written by any update in the program. -/
def applyPatch (f : Fields) (p : Patch) : Fields :=
  { prompt := f.prompt
    caption := patchField p.caption f.caption
    imageUrl := patchField p.imageUrl f.imageUrl
    published := patchField p.published f.published
    mediaId := patchField p.mediaId f.mediaId
    publishDate := patchField p.publishDate f.publishDate
    status := patchField p.status f.status }

/-- Effect of `batch_update_records` on the Posts table when the store
accepts the write: each `(record_id, fields)` pair is applied.  The batch
applies its operations in order; operations on distinct record ids
commute, so each record ends up with exactly the patches carrying its id,
applied in order. -/
def applyBatch (store : List AirRecord) (us : List (String × Patch)) : List AirRecord :=
  store.map (fun r =>
    { id := r.id
      fields := (us.filter (fun u => u.1 == r.id)).foldl (fun f u => applyPatch f u.2) r.fields })

/-- Look a record up by id (first match, as Airtable ids are unique). -/
def findRec (store : List AirRecord) (rid : String) : Option AirRecord :=
  store.find? (fun r => r.id == rid)

/-- `get_records_needing_captions` (lines 41-46): formula
`AND({Generated Captions} = '', {Published} != 'Yes')`. -/
def get_records_needing_captions (store : List AirRecord) : List AirRecord :=
  store.filter (fun r =>
    (fieldStr r.fields.caption == "") && (fieldStr r.fields.published != "Yes"))

/-! ## Caption stage (`CaptionGenerator`, lines 229-323) -/

/-- Behaviour of one language-model HTTP exchange, as observed by
`generate_caption`: a successful response with message `content`; a
`RequestException` without `"429"` in its text (returned as an error
dict); or a rate-limited exchange, whose re-raise exhausts the three
tenacity attempts so that the exception propagates to the caller. -/
inductive LMOutcome where
  | content (text : String)
  | requestError (msg : String)
  | rateLimited

/-- The dict returned by `generate_caption`: either
`{"caption": ..., "hashtags": ...}` or `{"error": ...}`. -/
inductive GenResult where
  | ok (caption hashtags : String)
  | err (msg : String)
deriving DecidableEq, Repr

/-- `generate_caption` (lines 239-268): `none` models the exception that
escapes after retries are exhausted. -/
def generate_caption : LMOutcome → Option GenResult
  | .content text =>
    let r := parseContent text.data
    some (.ok r.1.asString r.2.asString)
  | .requestError msg => some (.err msg)
  | .rateLimited => none

/-- The composed prompt of line 293. -/
def promptFor (company content : String) : String :=
  "Generate a detailed caption based on " ++ content ++ " and " ++ company ++
    ", include power words and realism and include 10 relevant hashtags at the end of the caption."

/-- The fixed error text written on a caption-generation error (line 299). -/
def errorCaption : String :=
  "API Error: Rate limit exceeded"

/-- An update dict writing only the caption and status fields. -/
def capPatch (c st : String) : Patch :=
  { caption := some c
    imageUrl := none
    published := none
    mediaId := none
    publishDate := none
    status := some st }

/-- One iteration of the loop of lines 286-310: a record without a
(non-empty) prompt field contributes nothing; otherwise the language
model is called and an update is queued.  `none` models the exception
escaping `generate_caption`, which aborts the whole pass before any
batch update is issued. -/
def captionPassStep (company : String) (oracle : String → LMOutcome) (r : AirRecord) :
    Option (List (String × Patch)) :=
  match r.fields.prompt with
  | none => some []
  | some p =>
    if p = "" then some []
    else
      match generate_caption (oracle (promptFor company p)) with
      | none => none
      | some (.err _) => some [(r.id, capPatch errorCaption STATUS_FAILED)]
      | some (.ok c h) => some [(r.id, capPatch (c ++ " " ++ h) STATUS_PENDING)]

/-- The `batch_updates` list accumulated by the loop; `none` when some
iteration raised (lines 321-323 then swallow the exception and return an
error dict without updating any record). -/
def collectUpdates (company : String) (oracle : String → LMOutcome) :
    List AirRecord → Option (List (String × Patch))
  | [] => some []
  | r :: rs =>
    match captionPassStep company oracle r with
    | none => none
    | some us =>
      match collectUpdates company oracle rs with
      | none => none
      | some rest => some (us ++ rest)

/-- `generate_captions_from_airtable` (lines 270-323) as a transformation
of the Posts table, with the final batch write modelled as accepted by
the store (`batch_update_records` failure is modelled separately). -/
def generate_captions_from_airtable (company : String) (oracle : String → LMOutcome)
    (store : List AirRecord) : List AirRecord :=
  match collectUpdates company oracle (get_records_needing_captions store) with
  | none => store
  | some us => applyBatch store us

/-! ### Lemmas about the caption pass -/

theorem filter_eq_nil_of {α : Type} (p : α → Bool) :
    ∀ l : List α, (∀ x ∈ l, p x = false) → l.filter p = [] := by
  intro l
  induction l with
  | nil => intro _; rfl
  | cons a t ih =>
    intro h
    rw [List.filter_cons, h a (List.mem_cons_self a t)]
    exact ih (fun x hx => h x (List.mem_cons_of_mem a hx))

theorem captionPassStep_ids {company : String} {oracle : String → LMOutcome}
    {r : AirRecord} {l : List (String × Patch)}
    (h : captionPassStep company oracle r = some l) :
    ∀ u ∈ l, u.1 = r.id := by
  unfold captionPassStep at h
  cases hp : r.fields.prompt with
  | none =>
    rw [hp] at h
    cases h
    simp
  | some p =>
    rw [hp] at h
    dsimp only at h
    by_cases h0 : p = ""
    · rw [if_pos h0] at h
      cases h
      simp
    · rw [if_neg h0] at h
      cases hg : generate_caption (oracle (promptFor company p)) with
      | none => rw [hg] at h; cases h
      | some gr =>
        rw [hg] at h
        cases gr <;> cases h <;> simp

theorem collectUpdates_mem_ids {company : String} {oracle : String → LMOutcome} :
    ∀ {rs : List AirRecord} {us : List (String × Patch)},
      collectUpdates company oracle rs = some us →
      ∀ u ∈ us, u.1 ∈ rs.map AirRecord.id := by
  intro rs
  induction rs with
  | nil =>
    intro us h u hu
    cases h
    cases hu
  | cons r rs ih =>
    intro us h u hu
    unfold collectUpdates at h
    cases h1 : captionPassStep company oracle r with
    | none => rw [h1] at h; cases h
    | some l =>
      rw [h1] at h
      cases h2 : collectUpdates company oracle rs with
      | none => rw [h2] at h; cases h
      | some rest =>
        rw [h2] at h
        cases h
        rcases List.mem_append.mp hu with hul | hur
        · exact List.mem_cons.mpr (Or.inl (captionPassStep_ids h1 u hul))
        · exact List.mem_cons.mpr (Or.inr (ih h2 u hur))

theorem collectUpdates_step {company : String} {oracle : String → LMOutcome} :
    ∀ {rs : List AirRecord} {us : List (String × Patch)},
      collectUpdates company oracle rs = some us →
      ∀ r ∈ rs, ∃ l, captionPassStep company oracle r = some l := by
  intro rs
  induction rs with
  | nil => intro us _ r hr; cases hr
  | cons r0 rs ih =>
    intro us h r hr
    unfold collectUpdates at h
    cases h1 : captionPassStep company oracle r0 with
    | none => rw [h1] at h; cases h
    | some l =>
      rw [h1] at h
      cases h2 : collectUpdates company oracle rs with
      | none => rw [h2] at h; cases h
      | some rest =>
        rcases List.mem_cons.mp hr with rfl | hr'
        · exact ⟨l, h1⟩
        · exact ih h2 r hr'

theorem collectUpdates_filter {company : String} {oracle : String → LMOutcome} :
    ∀ {rs : List AirRecord} {us : List (String × Patch)},
      (rs.map AirRecord.id).Nodup →
      collectUpdates company oracle rs = some us →
      ∀ r ∈ rs, ∀ l, captionPassStep company oracle r = some l →
        us.filter (fun u => u.1 == r.id) = l := by
  intro rs
  induction rs with
  | nil => intro us _ _ r hr; cases hr
  | cons r0 rs ih =>
    intro us hn h r hr l hl
    unfold collectUpdates at h
    cases h1 : captionPassStep company oracle r0 with
    | none => rw [h1] at h; cases h
    | some l0 =>
      rw [h1] at h
      cases h2 : collectUpdates company oracle rs with
      | none => rw [h2] at h; cases h
      | some rest =>
        rw [h2] at h
        cases h
        rw [List.map_cons, List.nodup_cons] at hn
        rw [List.filter_append]
        rcases List.mem_cons.mp hr with rfl | hr'
        · have hll : l = l0 := by
            rw [hl] at h1
            exact Option.some.inj h1
          subst hll
          have h3 : l.filter (fun u => u.1 == r.id) = l :=
            filter_eq_self_of _ _ (fun u hu => by
              simp [captionPassStep_ids hl u hu])
          have h4 : rest.filter (fun u => u.1 == r.id) = [] :=
            filter_eq_nil_of _ _ (fun u hu => by
              have hmem : u.1 ∈ rs.map AirRecord.id := collectUpdates_mem_ids h2 u hu
              simp only [beq_eq_false_iff_ne, ne_eq]
              intro he
              exact hn.1 (he ▸ hmem))
          rw [h3, h4, List.append_nil]
        · have h3 : l0.filter (fun u => u.1 == r.id) = [] :=
            filter_eq_nil_of _ _ (fun u hu => by
              have hids := captionPassStep_ids h1 u hu
              have hrid : r.id ∈ rs.map AirRecord.id := List.mem_map_of_mem AirRecord.id hr'
              simp only [beq_eq_false_iff_ne, ne_eq]
              intro he
              refine hn.1 ?_
              rw [hids.symm.trans he]
              exact hrid)
          rw [h3, List.nil_append]
          exact ih hn.2 h2 r hr' l hl

theorem findRec_map {g : AirRecord → AirRecord} (hg : ∀ r, (g r).id = r.id) :
    ∀ (store : List AirRecord) (rid : String),
      findRec (store.map g) rid = (findRec store rid).map g := by
  intro store
  induction store with
  | nil => intro rid; rfl
  | cons r t ih =>
    intro rid
    unfold findRec at *
    rw [List.map_cons, List.find?_cons, List.find?_cons, hg r]
    by_cases hc : (r.id == rid) = true
    · rw [hc]; rfl
    · rw [Bool.not_eq_true] at hc
      rw [hc]
      exact ih rid

theorem findRec_of_nodup :
    ∀ {store : List AirRecord} {r : AirRecord},
      (store.map AirRecord.id).Nodup → r ∈ store → findRec store r.id = some r := by
  intro store
  induction store with
  | nil => intro r _ hr; cases hr
  | cons r0 t ih =>
    intro r hn hr
    rw [List.map_cons, List.nodup_cons] at hn
    unfold findRec
    rw [List.find?_cons]
    rcases List.mem_cons.mp hr with rfl | hr'
    · simp
    · have hne : (r0.id == r.id) = false := by
        simp only [beq_eq_false_iff_ne, ne_eq]
        intro he
        exact hn.1 (he ▸ List.mem_map_of_mem AirRecord.id hr')
      rw [hne]
      exact ih hn.2 hr'

theorem findRec_applyBatch (store : List AirRecord) (us : List (String × Patch))
    (rid : String) :
    findRec (applyBatch store us) rid = (findRec store rid).map (fun r =>
      { id := r.id
        fields := (us.filter (fun u => u.1 == r.id)).foldl
          (fun f u => applyPatch f u.2) r.fields }) := by
  unfold applyBatch
  refine findRec_map ?_ store rid
  intro r0
  rfl

theorem append_space_ne_empty (c h : String) : c ++ " " ++ h ≠ "" := by
  intro hEq
  have hlen := congrArg String.length hEq
  rw [String.length_append, String.length_append] at hlen
  have h1 : (" " : String).length = 1 := rfl
  have h0 : ("" : String).length = 0 := rfl
  rw [h1, h0] at hlen
  omega

/-- C1 (amended): for every record considered by a caption pass (empty
caption, published ≠ 'Yes') that has a non-empty prompt field, if the pass
reached its batch write (no language-model call raised out of its
retries), then afterwards the record either has a non-empty caption and
status Pending, or caption equal to the fixed error text and status
Failed. -/
theorem caption_pass_outcome (company : String) (oracle : String → LMOutcome)
    (store : List AirRecord) (r : AirRecord) (p : String) (us : List (String × Patch))
    (hn : (store.map AirRecord.id).Nodup)
    (hr : r ∈ store)
    (hcap : fieldStr r.fields.caption = "")
    (hpub : fieldStr r.fields.published ≠ "Yes")
    (hp : r.fields.prompt = some p) (hp0 : p ≠ "")
    (hus : collectUpdates company oracle (get_records_needing_captions store) = some us) :
    ∃ r', findRec (generate_captions_from_airtable company oracle store) r.id = some r' ∧
      ((fieldStr r'.fields.caption ≠ "" ∧ r'.fields.status = some STATUS_PENDING) ∨
       (fieldStr r'.fields.caption = errorCaption ∧ r'.fields.status = some STATUS_FAILED)) := by
  have hrq : r ∈ get_records_needing_captions store := by
    unfold get_records_needing_captions
    refine List.mem_filter.mpr ⟨hr, ?_⟩
    rw [hcap]
    simp [bne_iff_ne, hpub]
  obtain ⟨l, hl⟩ := collectUpdates_step hus r hrq
  have hnq : ((get_records_needing_captions store).map AirRecord.id).Nodup :=
    List.Nodup.sublist (List.Sublist.map AirRecord.id (List.filter_sublist store)) hn
  have hfil := collectUpdates_filter hnq hus r hrq l hl
  have hstep := hl
  unfold captionPassStep at hstep
  rw [hp] at hstep
  dsimp only at hstep
  rw [if_neg hp0] at hstep
  unfold generate_captions_from_airtable
  rw [hus]
  dsimp only
  rw [findRec_applyBatch, findRec_of_nodup hn hr]
  simp only [Option.map_some']
  refine ⟨_, rfl, ?_⟩
  cases hg : generate_caption (oracle (promptFor company p)) with
  | none =>
    rw [hg] at hstep
    cases hstep
  | some gr =>
    rw [hg] at hstep
    cases gr with
    | err m =>
      cases hstep
      rw [hfil]
      right
      simp [applyPatch, patchField, capPatch, fieldStr]
    | ok c h =>
      cases hstep
      rw [hfil]
      left
      simp [applyPatch, patchField, capPatch, fieldStr]
      exact append_space_ne_empty c h

/-- C1 witness: a concrete pass on a one-record store with a stubbed
successful model response. -/
theorem caption_pass_outcome_witness :
    ∃ r', findRec (generate_captions_from_airtable "Co"
        (fun _ => LMOutcome.content "Nice. Hashtags: #a")
        [AirRecord.mk "w1" (Fields.mk (some "p1") none none (some "No") none none none)])
        (AirRecord.mk "w1" (Fields.mk (some "p1") none none (some "No") none none none)).id
        = some r' ∧
      ((fieldStr r'.fields.caption ≠ "" ∧ r'.fields.status = some STATUS_PENDING) ∨
       (fieldStr r'.fields.caption = errorCaption ∧ r'.fields.status = some STATUS_FAILED)) :=
  caption_pass_outcome "Co" (fun _ => LMOutcome.content "Nice. Hashtags: #a")
    [AirRecord.mk "w1" (Fields.mk (some "p1") none none (some "No") none none none)]
    (AirRecord.mk "w1" (Fields.mk (some "p1") none none (some "No") none none none))
    "p1" [("w1", capPatch "Nice. #a" STATUS_PENDING)]
    (by decide) (by decide) (by decide) (by decide) (by decide) (by decide) (by decide)

/-- C1 counterexample: a record with empty caption and published 'No' but
no prompt field is considered by the pass, yet after the pass it still
has an empty caption and no status — neither of the two claimed
outcomes. -/
theorem caption_pass_counterexample :
    findRec (generate_captions_from_airtable "The Tech Boss" (fun _ => LMOutcome.content "x")
        [AirRecord.mk "rec1" (Fields.mk none none none (some "No") none none none)]) "rec1" =
      some (AirRecord.mk "rec1" (Fields.mk none none none (some "No") none none none)) ∧
    fieldStr (Fields.mk none none none (some "No") none none none).caption = "" ∧
    fieldStr (Fields.mk none none none (some "No") none none none).published ≠ "Yes" ∧
    ¬ ((fieldStr (Fields.mk none none none (some "No") none none none).caption ≠ "" ∧
        (Fields.mk none none none (some "No") none none none).status = some STATUS_PENDING) ∨
       (fieldStr (Fields.mk none none none (some "No") none none none).caption = errorCaption ∧
        (Fields.mk none none none (some "No") none none none).status = some STATUS_FAILED)) := by
  decide

/-- C3 (amended): the end-to-end sunset scenario writes the caption
`"A golden sunset. #sunset #nature"` — with a single space before
`#sunset`, because the caption part is stripped before being joined —
and sets status Pending. -/
theorem caption_pass_sunset :
    (generate_captions_from_airtable "The Tech Boss"
        (fun _ => LMOutcome.content "A golden sunset. Hashtags: #sunset #nature")
        [AirRecord.mk "recR"
          (Fields.mk (some "sunset over mountains") none none (some "No") none none none)]).map
      (fun r => (r.id, fieldStr r.fields.caption, r.fields.status)) =
    [("recR", "A golden sunset. #sunset #nature", some STATUS_PENDING)] := by
  decide

/-- C3 counterexample: the caption written in the sunset scenario is not
the claimed two-space string `"A golden sunset.  #sunset #nature"`. -/
theorem caption_pass_sunset_counterexample :
    ¬ (generate_captions_from_airtable "The Tech Boss"
        (fun _ => LMOutcome.content "A golden sunset. Hashtags: #sunset #nature")
        [AirRecord.mk "recR"
          (Fields.mk (some "sunset over mountains") none none (some "No") none none none)]).map
      (fun r => fieldStr r.fields.caption) =
    ["A golden sunset.  #sunset #nature"] := by
  decide

/-! ## Publish API (`instagram_poster.py`, `publish_single_post`)

The two HTTP calls are modelled by oracles.  `raised` covers the call (or
any JSON decoding around it) throwing — every such exception is caught by
the outer `except` and turns into `None`; `notOk` is a response with a
non-OK status; `okJson idVal` is an OK response whose decoded body has
`idVal` under the key `"id"` (already coerced through `str(...)`; `none`
models a missing key, whose `KeyError` the inner `except` turns into
`None`). -/

inductive HttpOutcome where
  | raised
  | notOk
  | okJson (idVal : Option String)
deriving DecidableEq, Repr

structure PublishApi where
  container : HttpOutcome
  publishCall : Option String → HttpOutcome

/-- `publish_single_post` (instagram_poster.py lines 14-59): create the
media container, publish it by the creation id, and validate that the
returned id is purely numeric (`media_id.isdigit()`); any failure at any
step yields `None`. -/
def publish_single_post (api : PublishApi) : Option String :=
  match api.container with
  | .raised => none
  | .notOk => none
  | .okJson cid =>
    match api.publishCall cid with
    | .raised => none
    | .notOk => none
    | .okJson idv =>
      match idv with
      | none => none
      | some mid => if pyIsDigit mid then some mid else none

/-! ## Publish stage (`process_next_post`, lines 411-486) -/

/-- `get_unpublished_ready_posts` (lines 55-60): formula
`AND({Image URL} != '', {Published} != 'Yes', {Status} = 'Ready')`. -/
def get_unpublished_ready_posts (store : List AirRecord) : List AirRecord :=
  store.filter (fun r =>
    (fieldStr r.fields.imageUrl != "") && (fieldStr r.fields.published != "Yes") &&
    (fieldStr r.fields.status == STATUS_READY))

/-- `get_any_unpublished_posts` (lines 62-67): formula
`AND({Image URL} != '', {Published} != 'Yes')`. -/
def get_any_unpublished_posts (store : List AirRecord) : List AirRecord :=
  store.filter (fun r =>
    (fieldStr r.fields.imageUrl != "") && (fieldStr r.fields.published != "Yes"))

/-- Lines 421-425: the primary query result, or the fallback query result
when the primary one is empty. -/
def poolOf (store : List AirRecord) : List AirRecord :=
  let primary := get_unpublished_ready_posts store
  if primary.isEmpty then get_any_unpublished_posts store else primary

/-- The record `process_next_post` acts on, when one exists (line 434:
`records[0]`). -/
def selectedPost (store : List AirRecord) : Option AirRecord :=
  (poolOf store).head?

/-- An update dict writing only the status field. -/
def statusPatch (st : String) : Patch :=
  { caption := none
    imageUrl := none
    published := none
    mediaId := none
    publishDate := none
    status := some st }

/-- The update dict of lines 467-472 on a successful publish. -/
def publishedPatch (mid date : String) : Patch :=
  { caption := none
    imageUrl := none
    published := some "Yes"
    mediaId := some mid
    publishDate := some date
    status := some STATUS_COMPLETED }

/-- The publish stage's environment: the publish call (image URL and
stripped caption to optional media id) and the formatted local time
written as publish date. -/
structure PublishEnv where
  publish : String → String → Option String
  now : String

/-- `process_next_post` (lines 411-486), returning its boolean result and
the list of `update_record` calls it issues (the mutations attempted on
the Posts table).  The query pair of lines 421-425 picks the pool, line
434 takes its first record; missing image URL or caption marks the record
Failed; otherwise the publish call decides between the success update and
the Failed update. -/
def process_next_post (env : PublishEnv) (store : List AirRecord) :
    Bool × List (String × Patch) :=
  match poolOf store with
  | [] => (false, [])
  | record :: _ =>
    if (fieldStr record.fields.imageUrl == "") || (fieldStr record.fields.caption == "") then
      (false, [(record.id, statusPatch STATUS_FAILED)])
    else
      match env.publish (fieldStr record.fields.imageUrl)
          (pyStripS (fieldStr record.fields.caption)) with
      | some mid => (true, [(record.id, publishedPatch mid env.now)])
      | none => (false, [(record.id, statusPatch STATUS_FAILED)])

/-- C4: the publish stage issues at most one record mutation per
invocation, and the record ids it mutates are exactly those of the
selected post — the first record of the primary query, or of the fallback
query when the primary result is empty. -/
theorem process_next_post_single (env : PublishEnv) (store : List AirRecord) :
    (process_next_post env store).2.length ≤ 1 ∧
    (process_next_post env store).2.map Prod.fst =
      ((selectedPost store).map AirRecord.id).toList := by
  unfold process_next_post selectedPost
  cases hpool : poolOf store with
  | nil => simp
  | cons r t =>
    by_cases hv : ((fieldStr r.fields.imageUrl == "") ||
        (fieldStr r.fields.caption == "")) = true
    · simp [hv]
    · rw [Bool.not_eq_true] at hv
      cases hpub : env.publish (fieldStr r.fields.imageUrl)
          (pyStripS (fieldStr r.fields.caption)) with
      | none => simp [hv, hpub]
      | some mid => simp [hv, hpub]

/-- C10: `publish_single_post` is total over every behaviour of the two
HTTP calls — it returns `none` or a purely numeric media-id string, and
nothing else. -/
theorem publish_single_post_total (api : PublishApi) :
    publish_single_post api = none ∨
    ∃ s, publish_single_post api = some s ∧ pyIsDigit s = true := by
  cases hc : api.container with
  | raised => exact Or.inl (by simp [publish_single_post, hc])
  | notOk => exact Or.inl (by simp [publish_single_post, hc])
  | okJson cid =>
    cases hp : api.publishCall cid with
    | raised => exact Or.inl (by simp [publish_single_post, hc, hp])
    | notOk => exact Or.inl (by simp [publish_single_post, hc, hp])
    | okJson idv =>
      cases idv with
      | none => exact Or.inl (by simp [publish_single_post, hc, hp])
      | some mid =>
        by_cases hd : pyIsDigit mid = true
        · exact Or.inr ⟨mid, by simp [publish_single_post, hc, hp, hd], hd⟩
        · rw [Bool.not_eq_true] at hd
          exact Or.inl (by simp [publish_single_post, hc, hp, hd])

/-- C5: when the publish response is OK but carries a media id that is not
purely numeric, `publish_single_post` returns `none`, and the publish
stage marks the selected record Failed with an update that writes neither
the published flag, nor the media id, nor the publish date. -/
theorem publish_nonnumeric_id_failed (apiOf : String → String → PublishApi)
    (now : String) (store : List AirRecord) (r : AirRecord)
    (cid : Option String) (mid : String)
    (hsel : selectedPost store = some r)
    (himg : fieldStr r.fields.imageUrl ≠ "")
    (hcap : fieldStr r.fields.caption ≠ "")
    (hcont : (apiOf (fieldStr r.fields.imageUrl)
        (pyStripS (fieldStr r.fields.caption))).container = .okJson cid)
    (hpub : (apiOf (fieldStr r.fields.imageUrl)
        (pyStripS (fieldStr r.fields.caption))).publishCall cid = .okJson (some mid))
    (hdig : pyIsDigit mid = false) :
    publish_single_post (apiOf (fieldStr r.fields.imageUrl)
        (pyStripS (fieldStr r.fields.caption))) = none ∧
    process_next_post
        { publish := fun u c => publish_single_post (apiOf u c), now := now } store =
      (false, [(r.id, statusPatch STATUS_FAILED)]) ∧
    (statusPatch STATUS_FAILED).published = none ∧
    (statusPatch STATUS_FAILED).mediaId = none ∧
    (statusPatch STATUS_FAILED).publishDate = none := by
  have hnone : publish_single_post (apiOf (fieldStr r.fields.imageUrl)
      (pyStripS (fieldStr r.fields.caption))) = none := by
    simp [publish_single_post, hcont, hpub, hdig]
  refine ⟨hnone, ?_, rfl, rfl, rfl⟩
  obtain ⟨t, hpool⟩ : ∃ t, poolOf store = r :: t := by
    unfold selectedPost at hsel
    cases hpool : poolOf store with
    | nil => rw [hpool] at hsel; cases hsel
    | cons a t =>
      rw [hpool] at hsel
      exact ⟨t, by rw [List.head?_cons] at hsel; rw [Option.some.inj hsel]⟩
  unfold process_next_post
  rw [hpool]
  have hv : ((fieldStr r.fields.imageUrl == "") ||
      (fieldStr r.fields.caption == "")) = false := by
    simp [himg, hcap]
  dsimp only
  simp [hv, hnone]

/-- C5 witness at a concrete store and publish API behaviour (media id
`"12a"` is not purely numeric). -/
theorem publish_nonnumeric_id_failed_witness :
    publish_single_post
        ((fun _ _ => PublishApi.mk (.okJson (some "c9")) (fun _ => .okJson (some "12a")))
          (fieldStr (AirRecord.mk "pr1" (Fields.mk none (some "cap") (some "http img")
            (some "No") none none (some "Ready"))).fields.imageUrl)
          (pyStripS (fieldStr (AirRecord.mk "pr1" (Fields.mk none (some "cap") (some "http img")
            (some "No") none none (some "Ready"))).fields.caption))) = none ∧
    process_next_post
        { publish := fun u c => publish_single_post
            ((fun _ _ => PublishApi.mk (.okJson (some "c9")) (fun _ => .okJson (some "12a"))) u c)
          now := "01/01/2026 00:00:00" }
        [AirRecord.mk "pr1" (Fields.mk none (some "cap") (some "http img")
          (some "No") none none (some "Ready"))] =
      (false, [((AirRecord.mk "pr1" (Fields.mk none (some "cap") (some "http img")
        (some "No") none none (some "Ready"))).id, statusPatch STATUS_FAILED)]) ∧
    (statusPatch STATUS_FAILED).published = none ∧
    (statusPatch STATUS_FAILED).mediaId = none ∧
    (statusPatch STATUS_FAILED).publishDate = none :=
  publish_nonnumeric_id_failed
    (fun _ _ => PublishApi.mk (.okJson (some "c9")) (fun _ => .okJson (some "12a")))
    "01/01/2026 00:00:00"
    [AirRecord.mk "pr1" (Fields.mk none (some "cap") (some "http img")
      (some "No") none none (some "Ready"))]
    (AirRecord.mk "pr1" (Fields.mk none (some "cap") (some "http img")
      (some "No") none none (some "Ready")))
    (some "c9") "12a"
    (by decide) (by decide) (by decide) (by decide) (by decide) (by decide)

/-! ## Retry/Dead-Letter queue (`AirtableClient`, lines 69-165) -/

/-- A row of the Retry Queue table.  `eid` is the store-assigned row id;
rows created during a run are modelled with `eid = ""` (the store assigns
the real one, and no modelled behaviour reads it). -/
structure RetryEntry where
  eid : String
  operation : Option String
  recordId : Option String
  details : Option String
  created : Option String
  status : String
deriving DecidableEq, Repr

/-- Environment of the retry machinery: `parse` models `ast.literal_eval`
on a stored Details text (`none` models it raising); `serialize` models
Python `str(fields)`; `attemptUpdate` tells whether `posts_table.update`
(through `safe_request`'s three attempts) finally succeeds for the given
record id and fields dict; `batchOk` likewise for
`posts_table.batch_update`; `createOk` whether `retry_table.create`
succeeds; `nowIso` is the creation timestamp written into new rows.  The
`retry_table.update` that writes an entry's final sweep status is
modelled as accepted by the store (in the source its failure aborts the
remainder of the sweep). -/
structure RetryEnv where
  parse : String → Option Patch
  serialize : Patch → String
  attemptUpdate : Option String → Patch → Bool
  batchOk : List (String × Patch) → Bool
  createOk : Bool
  nowIso : String

/-- The empty fields dict `{}`. -/
def emptyPatch : Patch :=
  { caption := none
    imageUrl := none
    published := none
    mediaId := none
    publishDate := none
    status := none }

/-- `"Details": str(details) if details else None` (line 114): an empty
dict is falsy in Python, so it is stored as a missing Details field. -/
def detailsOf (env : RetryEnv) (flds : Patch) : Option String :=
  if flds = emptyPatch then none else some (env.serialize flds)

/-- The Retry Queue row created by `add_to_retry_queue` (lines 109-118). -/
def mkRetryEntry (env : RetryEnv) (op : String) (rid : Option String)
    (dets : Option String) : RetryEntry :=
  { eid := ""
    operation := some op
    recordId := rid
    details := dets
    created := some env.nowIso
    status := STATUS_PENDING }

/-- `add_to_retry_queue` (lines 106-123): returns whether the create
succeeded, together with the created rows (none when the create itself
fails — that failure is only logged). -/
def add_to_retry_queue (env : RetryEnv) (op : String) (rid : Option String)
    (dets : Option String) : Bool × List RetryEntry :=
  if env.createOk then (true, [mkRetryEntry env op rid dets]) else (false, [])

/-- `update_record` (lines 69-82): attempt the single-record update; on
failure dead-letter the operation and return `False`.  The second
component is the rows added to the Retry Queue. -/
def update_record (env : RetryEnv) (rid : Option String) (flds : Patch) :
    Bool × List RetryEntry :=
  if env.attemptUpdate rid flds then (true, [])
  else (false, (add_to_retry_queue env "update" rid (detailsOf env flds)).2)

/-- `batch_update_records` (lines 84-104): an empty batch returns `True`
immediately; on failure of the batch call, every item of the batch is
dead-lettered individually and `False` is returned. -/
def batch_update_records (env : RetryEnv) (data : List (String × Patch)) :
    Bool × List RetryEntry :=
  if data.isEmpty then (true, [])
  else if env.batchOk data then (true, [])
  else
    (false,
      data.flatMap (fun p => (add_to_retry_queue env "update" (some p.1) (detailsOf env p.2)).2))

/-- One iteration of the sweep loop (lines 138-163): an `update` entry is
replayed by literal-evaluating its Details (a falsy Details — missing or
empty — is replayed as `{}`); a failed evaluation leaves `success` false;
any other operation kind also leaves `success` false.  The result is the
entry with its final status and the rows the replay dead-lettered. -/
def processItem (env : RetryEnv) (e : RetryEntry) : RetryEntry × List RetryEntry :=
  let res :=
    if e.operation = some "update" then
      match e.details with
      | none => update_record env e.recordId emptyPatch
      | some d =>
        if d = "" then update_record env e.recordId emptyPatch
        else
          match env.parse d with
          | some flds => update_record env e.recordId flds
          | none => (false, [])
    else (false, [])
  ({ e with status := if res.1 then STATUS_COMPLETED else STATUS_FAILED }, res.2)

/-- The sweep's selection query (lines 133-136): formula
`{Status} = 'Pending'`. -/
def pendingItems (store : List RetryEntry) : List RetryEntry :=
  store.filter (fun e => e.status == STATUS_PENDING)

/-- `process_retry_queue` (lines 125-165) as a transformation of the
Retry Queue table: every entry of the Pending snapshot is processed and
receives its final status; rows dead-lettered by failed replays are
appended (they are created by `update_record` during the loop, after the
query snapshot was taken, so they are not themselves processed). -/
def process_retry_queue (env : RetryEnv) (store : List RetryEntry) : List RetryEntry :=
  store.map (fun e => if e.status == STATUS_PENDING then (processItem env e).1 else e) ++
    (pendingItems store).flatMap (fun e => (processItem env e).2)

/-! ### Theorems about the retry queue -/

theorem flatMap_eq_map {α β : Type} (f : α → List β) (g : α → β)
    (hf : ∀ x, f x = [g x]) : ∀ l : List α, l.flatMap f = l.map g := by
  intro l
  induction l with
  | nil => rfl
  | cons a t ih => rw [List.flatMap_cons, hf a, ih, List.map_cons, List.singleton_append]

/-- C6: a Pending `update` entry whose Details payload cannot be
literal-evaluated is transitioned to Failed by the sweep, and a Failed
entry is never selected by the Pending-only query of any later sweep. -/
theorem retry_sweep_malformed (env : RetryEnv) (store : List RetryEntry)
    (e : RetryEntry) (d : String)
    (he : e ∈ store) (hst : e.status = STATUS_PENDING)
    (hop : e.operation = some "update") (hd : e.details = some d)
    (hd0 : d ≠ "") (hparse : env.parse d = none) :
    { e with status := STATUS_FAILED } ∈ process_retry_queue env store ∧
    ∀ s : List RetryEntry, { e with status := STATUS_FAILED } ∉ pendingItems s := by
  constructor
  · unfold process_retry_queue
    refine List.mem_append_left _ ?_
    have himg : (fun e => if e.status == STATUS_PENDING then (processItem env e).1 else e) e
        = { e with status := STATUS_FAILED } := by
      simp only [hst, beq_self_eq_true, if_true]
      simp [processItem, hop, hd, hd0, hparse]
    exact himg ▸ List.mem_map_of_mem _ he
  · intro s hmem
    rcases List.mem_filter.mp hmem with ⟨_, hpend⟩
    have hfs : ({ e with status := STATUS_FAILED } : RetryEntry).status = STATUS_FAILED := rfl
    rw [hfs] at hpend
    exact absurd hpend (by decide)

/-- C6 witness at a concrete queue and a parse oracle that always
raises. -/
theorem retry_sweep_malformed_witness :
    { eid := "q1", operation := some "update", recordId := some "recA",
      details := some "notadict", created := some "t0",
      status := STATUS_FAILED : RetryEntry } ∈
      process_retry_queue
        { parse := fun _ => none, serialize := fun _ => "x",
          attemptUpdate := fun _ _ => false, batchOk := fun _ => false,
          createOk := true, nowIso := "t1" }
        [{ eid := "q1", operation := some "update", recordId := some "recA",
           details := some "notadict", created := some "t0", status := STATUS_PENDING }] ∧
    { eid := "q1", operation := some "update", recordId := some "recA",
      details := some "notadict", created := some "t0",
      status := STATUS_FAILED : RetryEntry } ∉
      pendingItems
        [{ eid := "q1", operation := some "update", recordId := some "recA",
           details := some "notadict", created := some "t0", status := STATUS_FAILED }] :=
  ⟨(retry_sweep_malformed
      { parse := fun _ => none, serialize := fun _ => "x",
        attemptUpdate := fun _ _ => false, batchOk := fun _ => false,
        createOk := true, nowIso := "t1" }
      [{ eid := "q1", operation := some "update", recordId := some "recA",
         details := some "notadict", created := some "t0", status := STATUS_PENDING }]
      { eid := "q1", operation := some "update", recordId := some "recA",
        details := some "notadict", created := some "t0", status := STATUS_PENDING }
      "notadict" (by decide) (by decide) (by decide) (by decide) (by decide) (by decide)).1,
   (retry_sweep_malformed
      { parse := fun _ => none, serialize := fun _ => "x",
        attemptUpdate := fun _ _ => false, batchOk := fun _ => false,
        createOk := true, nowIso := "t1" }
      [{ eid := "q1", operation := some "update", recordId := some "recA",
         details := some "notadict", created := some "t0", status := STATUS_PENDING }]
      { eid := "q1", operation := some "update", recordId := some "recA",
        details := some "notadict", created := some "t0", status := STATUS_PENDING }
      "notadict" (by decide) (by decide) (by decide) (by decide) (by decide) (by decide)).2 _⟩

/-- C7: when a non-empty batch update fails after its retries and the
retry-table create succeeds, every `(record id, fields)` pair of the
batch is dead-lettered as a Pending `update` entry carrying the
serialized payload, and the call returns `False`. -/
theorem batch_update_deadletters_all (env : RetryEnv) (data : List (String × Patch))
    (h0 : data ≠ []) (hb : env.batchOk data = false) (hcr : env.createOk = true) :
    batch_update_records env data =
      (false, data.map (fun p => mkRetryEntry env "update" (some p.1) (detailsOf env p.2))) := by
  unfold batch_update_records
  rw [if_neg (by simpa using h0), if_neg (by simp [hb])]
  rw [flatMap_eq_map _ (fun p => mkRetryEntry env "update" (some p.1) (detailsOf env p.2))
    (fun p => by simp [add_to_retry_queue, hcr]) data]

/-- C7 witness at a concrete two-item batch. -/
theorem batch_update_deadletters_all_witness :
    batch_update_records
        { parse := fun _ => none, serialize := fun _ => "ser", attemptUpdate := fun _ _ => true,
          batchOk := fun _ => false, createOk := true, nowIso := "t2" }
        [("ra", capPatch "c1" STATUS_PENDING), ("rb", capPatch "c2" STATUS_FAILED)] =
      (false,
        [("ra", capPatch "c1" STATUS_PENDING), ("rb", capPatch "c2" STATUS_FAILED)].map
          (fun p => mkRetryEntry
            { parse := fun _ => none, serialize := fun _ => "ser", attemptUpdate := fun _ _ => true,
              batchOk := fun _ => false, createOk := true, nowIso := "t2" }
            "update" (some p.1)
            (detailsOf
              { parse := fun _ => none, serialize := fun _ => "ser", attemptUpdate := fun _ _ => true,
                batchOk := fun _ => false, createOk := true, nowIso := "t2" } p.2))) :=
  batch_update_deadletters_all
    { parse := fun _ => none, serialize := fun _ => "ser", attemptUpdate := fun _ _ => true,
      batchOk := fun _ => false, createOk := true, nowIso := "t2" }
    [("ra", capPatch "c1" STATUS_PENDING), ("rb", capPatch "c2" STATUS_FAILED)]
    (by decide) (by decide) (by decide)

/-- C9: when the sweep replays an `update` entry whose payload parses but
whose replayed update fails after retries, the original entry is marked
Failed, yet a fresh Pending entry with the same record id and the
re-serialized payload is appended to the queue by `update_record`'s
dead-lettering — so the mutation re-enters the queue and is selected by
later sweeps. -/
theorem retry_sweep_redeadletter (env : RetryEnv) (store : List RetryEntry)
    (e : RetryEntry) (d : String) (flds : Patch)
    (he : e ∈ store) (hst : e.status = STATUS_PENDING)
    (hop : e.operation = some "update") (hd : e.details = some d) (hd0 : d ≠ "")
    (hparse : env.parse d = some flds)
    (hupd : env.attemptUpdate e.recordId flds = false)
    (hcr : env.createOk = true) :
    { e with status := STATUS_FAILED } ∈ process_retry_queue env store ∧
    mkRetryEntry env "update" e.recordId (detailsOf env flds) ∈ process_retry_queue env store ∧
    (mkRetryEntry env "update" e.recordId (detailsOf env flds)).status = STATUS_PENDING := by
  have hrepl : processItem env e =
      ({ e with status := STATUS_FAILED },
        [mkRetryEntry env "update" e.recordId (detailsOf env flds)]) := by
    simp [processItem, hop, hd, hd0, hparse, update_record, hupd, add_to_retry_queue, hcr]
  refine ⟨?_, ?_, rfl⟩
  · unfold process_retry_queue
    refine List.mem_append_left _ ?_
    have himg : (fun e => if e.status == STATUS_PENDING then (processItem env e).1 else e) e
        = { e with status := STATUS_FAILED } := by
      simp only [hst, beq_self_eq_true, if_true, hrepl]
    exact himg ▸ List.mem_map_of_mem _ he
  · unfold process_retry_queue
    refine List.mem_append_right _ ?_
    refine List.mem_flatMap.mpr ⟨e, ?_, ?_⟩
    · exact List.mem_filter.mpr ⟨he, by simp [hst]⟩
    · rw [hrepl]
      exact List.mem_singleton.mpr rfl

/-- C9 witness at a concrete queue, parse oracle and failing update. -/
theorem retry_sweep_redeadletter_witness :
    { eid := "q2", operation := some "update", recordId := some "recB",
      details := some "dictText", created := some "t0",
      status := STATUS_FAILED : RetryEntry } ∈
      process_retry_queue
        { parse := fun _ => some (capPatch "c" STATUS_PENDING), serialize := fun _ => "dictText2",
          attemptUpdate := fun _ _ => false, batchOk := fun _ => false,
          createOk := true, nowIso := "t3" }
        [{ eid := "q2", operation := some "update", recordId := some "recB",
           details := some "dictText", created := some "t0", status := STATUS_PENDING }] ∧
    mkRetryEntry
        { parse := fun _ => some (capPatch "c" STATUS_PENDING), serialize := fun _ => "dictText2",
          attemptUpdate := fun _ _ => false, batchOk := fun _ => false,
          createOk := true, nowIso := "t3" }
        "update" (some "recB")
        (detailsOf
          { parse := fun _ => some (capPatch "c" STATUS_PENDING), serialize := fun _ => "dictText2",
            attemptUpdate := fun _ _ => false, batchOk := fun _ => false,
            createOk := true, nowIso := "t3" }
          (capPatch "c" STATUS_PENDING)) ∈
      process_retry_queue
        { parse := fun _ => some (capPatch "c" STATUS_PENDING), serialize := fun _ => "dictText2",
          attemptUpdate := fun _ _ => false, batchOk := fun _ => false,
          createOk := true, nowIso := "t3" }
        [{ eid := "q2", operation := some "update", recordId := some "recB",
           details := some "dictText", created := some "t0", status := STATUS_PENDING }] :=
  ⟨(retry_sweep_redeadletter
      { parse := fun _ => some (capPatch "c" STATUS_PENDING), serialize := fun _ => "dictText2",
        attemptUpdate := fun _ _ => false, batchOk := fun _ => false,
        createOk := true, nowIso := "t3" }
      [{ eid := "q2", operation := some "update", recordId := some "recB",
         details := some "dictText", created := some "t0", status := STATUS_PENDING }]
      { eid := "q2", operation := some "update", recordId := some "recB",
        details := some "dictText", created := some "t0", status := STATUS_PENDING }
      "dictText" (capPatch "c" STATUS_PENDING)
      (by decide) (by decide) (by decide) (by decide) (by decide) (by decide) (by decide)
      (by decide)).1,
   (retry_sweep_redeadletter
      { parse := fun _ => some (capPatch "c" STATUS_PENDING), serialize := fun _ => "dictText2",
        attemptUpdate := fun _ _ => false, batchOk := fun _ => false,
        createOk := true, nowIso := "t3" }
      [{ eid := "q2", operation := some "update", recordId := some "recB",
         details := some "dictText", created := some "t0", status := STATUS_PENDING }]
      { eid := "q2", operation := some "update", recordId := some "recB",
        details := some "dictText", created := some "t0", status := STATUS_PENDING }
      "dictText" (capPatch "c" STATUS_PENDING)
      (by decide) (by decide) (by decide) (by decide) (by decide) (by decide) (by decide)
      (by decide)).2.1⟩

end InstaAuto
